import Mathlib

/-!
Verification development for the film-search console application.

The Lean definitions below are a shallow embedding of the program:

* `mysql_connector.py` / `sql_queries.py` — the catalog is modelled as a
  relational `Catalog` (lists of `film`, `category`, `actor` rows and the
  two link tables), and the two SQL SELECT statements are modelled row by
  row: the `LIKE` operator is given MySQL wildcard semantics
  (`likeMatch`), inner joins demand a matching row in every joined table,
  `GROUP BY f.film_id` produces one record per matching film (the
  embedding treats `film_id` as the primary key, as the schema declares),
  `GROUP_CONCAT(DISTINCT … ORDER BY a.last_name SEPARATOR ', ')` is
  modelled by `actorsField`, and `ORDER BY … LIMIT … OFFSET …` by an
  insertion sort followed by `drop`/`take`.  The success path of
  `execute_query` is modelled; the connection-failure path (empty result)
  is modelled where a claim depends on it (`get_year_range`,
  `execute_query_conn`).
* `log_writer.py` / `log_stats.py` — the analytics store is a list of
  `SearchEvent`s; the aggregation pipeline of `get_popular_queries` and
  the sort/limit cursor of `get_recent_queries` are modelled over that
  list.  `find().limit(0)` keeps MongoDB semantics: a limit of 0 means no
  limit (`mongoLimit`).
* `main.py` — one iteration of each pagination loop body is modelled by
  `keyword_page_step` / `genre_year_page_step`.
* `formatter.py` — `format_results` is modelled as an `Except`-valued
  function: the `ValueError` raised on an unsupported row shape is the
  `Except.error` branch.

Spec-side definitions (named `spec_…`) are written from the specification
text and compared with the code-side definitions.
-/

namespace FilmSearch

/-! ### MySQL `LIKE` pattern matching

`likeMatch p s` models MySQL `LIKE` over already case-normalised character
lists: `%` matches any sequence, `_` any single character, and a backslash
escapes the next pattern character.  Matching is structural in the pattern,
the `%` case trying every suffix of the subject. -/

def likeMatch : List Char → List Char → Bool
  | [], s => s.isEmpty
  | c :: p, s =>
    if c = '%' then s.tails.any (fun t => likeMatch p t)
    else if c = '_' then
      match s with
      | [] => false
      | _ :: s2 => likeMatch p s2
    else if c = '\\' then
      match p with
      | [] => s == ['\\']
      | d :: p2 =>
        match s with
        | [] => false
        | c2 :: s2 => c2 == d && likeMatch p2 s2
    else
      match s with
      | [] => false
      | c2 :: s2 => c2 == c && likeMatch p s2

/-- Case-normalisation applied by the MySQL case-insensitive collation:
both the pattern and the subject are compared lowercased. -/
def lowerChars (s : String) : List Char := s.data.map Char.toLower

/-- Pattern built by `search_by_keyword`: `"%" + keyword + "%"` (lowercased,
which fixes no wildcard character). -/
def likePattern (kw : String) : List Char := '%' :: (lowerChars kw ++ ['%'])

/-- Code-side title test of `SEARCH_BY_KEYWORD`: `f.title LIKE '%kw%'` under
a case-insensitive collation. -/
def titleMatches (kw t : String) : Bool := likeMatch (likePattern kw) (lowerChars t)

/-- Spec-side prefix test: `litHead k s` holds when `s` starts with `k`. -/
def litHead : List Char → List Char → Bool
  | [], _ => true
  | _ :: _, [] => false
  | c :: k, s =>
    match s with
    | [] => false
    | c2 :: s2 => c == c2 && litHead k s2

/-- Spec-side substring test, written from the specification words
"contains `keyword` as a substring": some suffix of `s` starts with `k`. -/
def containsSub (k : List Char) : List Char → Bool
  | [] => litHead k []
  | c :: s2 => litHead k (c :: s2) || containsSub k s2

/-- Spec-side case-insensitive containment of `needle` in `hay`. -/
def containsCI (needle hay : String) : Bool :=
  containsSub (lowerChars needle) (lowerChars hay)

/-- Character that is neither a `LIKE` wildcard nor the escape character. -/
def cleanChar (c : Char) : Prop := c ≠ '%' ∧ c ≠ '_' ∧ c ≠ '\\'

instance : DecidablePred cleanChar := fun c => by
  unfold cleanChar
  infer_instance

/-! ### Catalog data model (schema of section 6 of the specification)

Rows of the relational catalog: `film`, `category`, `actor`, and the link
tables `film_category` and `film_actor` as lists of id pairs. -/

structure Film where
  film_id : Nat
  title : String
  release_year : Int
  rating : String
deriving DecidableEq

structure Category where
  category_id : Nat
  name : String
deriving DecidableEq

structure ActorRow where
  actor_id : Nat
  first_name : String
  last_name : String
deriving DecidableEq

structure Catalog where
  films : List Film
  categories : List Category
  actors : List ActorRow
  film_category : List (Nat × Nat)
  film_actor : List (Nat × Nat)
deriving DecidableEq

/-- Result row shape of both search queries (DictCursor): title, year,
rating, genre, actors. -/
structure FilmRecord where
  title : String
  year : Int
  rating : String
  genre : String
  actors : String
deriving DecidableEq

/-- Names of the categories joined to `f` through `film_category`
(`JOIN film_category USING(film_id) JOIN category USING(category_id)`).
The embedding assumes `category_id` is the primary key of `category`, so
the first matching row is the matching row. -/
def filmCategoryNames (db : Catalog) (f : Film) : List String :=
  db.film_category.filterMap fun fc =>
    if fc.1 = f.film_id then (db.categories.find? (fun c => c.category_id == fc.2)).map Category.name
    else none

/-- Actor rows joined to `f` through `film_actor`
(`JOIN film_actor USING(film_id) JOIN actor USING(actor_id)`), assuming
`actor_id` is the primary key of `actor`. -/
def filmActors (db : Catalog) (f : Film) : List ActorRow :=
  db.film_actor.filterMap fun fa =>
    if fa.1 = f.film_id then db.actors.find? (fun a => a.actor_id == fa.2)
    else none

/-- Inner join on `film_category`/`category` succeeds: the film has at
least one assigned category. -/
def hasCategory (db : Catalog) (f : Film) : Bool :=
  !(filmCategoryNames db f).isEmpty

/-- Inner join on `film_actor`/`actor` succeeds: the film has at least one
credited actor. -/
def hasActor (db : Catalog) (f : Film) : Bool :=
  !(filmActors db f).isEmpty

/-- Relation used for `ORDER BY a.last_name` inside `GROUP_CONCAT`:
compares the (full name, last name) pairs by last name. -/
def lastNameLe (a b : String × String) : Prop := a.2 ≤ b.2

instance : DecidableRel lastNameLe := fun a b => by
  unfold lastNameLe
  infer_instance

/-- Value of `GROUP_CONCAT(DISTINCT CONCAT(a.first_name, ' ', a.last_name)
ORDER BY a.last_name SEPARATOR ', ')` for one film group: full names,
deduplicated, sorted by last name, joined with ", ". -/
def actorsField (db : Catalog) (f : Film) : String :=
  let raw := (filmActors db f).map fun a => (a.first_name ++ " " ++ a.last_name, a.last_name)
  let distinct := raw.foldl (fun acc n => if acc.any (fun m => m.1 == n.1) then acc else acc ++ [n]) []
  String.intercalate ", " ((distinct.insertionSort lastNameLe).map Prod.fst)

/-- Value of the non-aggregated `c.name AS genre` column under
`GROUP BY f.film_id`: MySQL returns an indeterminate joined category name;
the embedding picks the first join row. -/
def genreField (db : Catalog) (f : Film) : String :=
  (filmCategoryNames db f).headD ""

/-- Result record produced for film `f` by `SEARCH_BY_KEYWORD`. -/
def toRecord (db : Catalog) (f : Film) : FilmRecord :=
  ⟨f.title, f.release_year, f.rating, genreField db f, actorsField db f⟩

/-- Result record produced for film `f` by `SEARCH_BY_GENRE_AND_YEAR`:
after `WHERE c.name = genre` every surviving join row carries that
category name, so the genre column is the searched genre itself. -/
def toRecordGY (db : Catalog) (genre : String) (f : Film) : FilmRecord :=
  ⟨f.title, f.release_year, f.rating, genre, actorsField db f⟩

/-- Relation used for `ORDER BY f.title`. -/
def titleLe (a b : Film) : Prop := a.title ≤ b.title

instance : DecidableRel titleLe := fun a b => by
  unfold titleLe
  infer_instance

instance : IsTrans Film titleLe := ⟨fun _ _ _ h1 h2 => le_trans h1 h2⟩

instance : IsTotal Film titleLe := ⟨fun a b => le_total a.title b.title⟩

/-- Relation used for `ORDER BY f.release_year, f.title`. -/
def yearTitleLe (a b : Film) : Prop :=
  a.release_year < b.release_year ∨ (a.release_year = b.release_year ∧ a.title ≤ b.title)

instance : DecidableRel yearTitleLe := fun a b => by
  unfold yearTitleLe
  infer_instance

/-- WHERE clause of `SEARCH_BY_KEYWORD` together with the inner joins:
the title matches `'%keyword%'` and every joined table has a row. -/
def keywordRowFilter (db : Catalog) (kw : String) (f : Film) : Bool :=
  titleMatches kw f.title && hasCategory db f && hasActor db f

/-- Embedding of `search_by_keyword(keyword, limit, offset)`: filter,
group per film, `ORDER BY f.title`, `LIMIT limit OFFSET offset`. -/
def search_by_keyword (db : Catalog) (kw : String) (limit offset : Nat) : List FilmRecord :=
  ((((db.films.filter (keywordRowFilter db kw)).insertionSort titleLe).drop offset).take
    limit).map (toRecord db)

/-- Complete ordered match set of a keyword search (no pagination window). -/
def allKeywordResults (db : Catalog) (kw : String) : List FilmRecord :=
  ((db.films.filter (keywordRowFilter db kw)).insertionSort titleLe).map (toRecord db)

/-- WHERE clause of `SEARCH_BY_GENRE_AND_YEAR` together with the inner
joins: some joined category is named `genre`, the release year lies in
`[year_from, year_to]`, and the actor join has a row. -/
def genreYearRowFilter (db : Catalog) (genre : String) (yearFrom yearTo : Int) (f : Film) : Bool :=
  (filmCategoryNames db f).contains genre && hasActor db f &&
    decide (yearFrom ≤ f.release_year) && decide (f.release_year ≤ yearTo)

/-- Embedding of `search_by_genre_and_year(genre, year_from, year_to,
limit, offset)`. -/
def search_by_genre_and_year (db : Catalog) (genre : String) (yearFrom yearTo : Int)
    (limit offset : Nat) : List FilmRecord :=
  ((((db.films.filter (genreYearRowFilter db genre yearFrom yearTo)).insertionSort
    yearTitleLe).drop offset).take limit).map (toRecordGY db genre)

/-- Row produced by `GET_YEAR_RANGE` (`SELECT MIN(release_year),
MAX(release_year) FROM film`): aggregates over an empty table yield one
row of SQL NULLs, modelled as `none`. -/
def yearRangeRow (db : Catalog) : Option Int × Option Int :=
  match db.films.map Film.release_year with
  | [] => (none, none)
  | y :: ys => (some (ys.foldl min y), some (ys.foldl max y))

/-- Embedding of `get_year_range()`.  `connOk` is false when opening the
connection or executing the query fails, in which case `execute_query`
returns the falsy `[]` and the function falls back to `(0, 0)`.  On
success `fetchone` returns the aggregate row as a dict, which is truthy
even when both values are NULL, so the row is returned as is. -/
def get_year_range (db : Catalog) (connOk : Bool) : Option Int × Option Int :=
  if connOk then yearRangeRow db else (some 0, some 0)

/-! ### Analytics store (`log_writer.py`, `log_stats.py`)

A Search Event document `{timestamp, search_type, params, results_count}`;
`params` is the dict written by `main.py`, with each key present only for
the relevant search type.  Timestamps are modelled as naturals ordered as
the UTC instants are. -/

structure SearchParams where
  keyword : Option String := none
  page : Option Nat := none
  genre : Option String := none
  year_range : Option String := none
deriving DecidableEq

structure SearchEvent where
  timestamp : Nat
  search_type : String
  params : SearchParams
  results_count : Nat
deriving DecidableEq

/-- Embedding of `log_search(search_type, params, results_count)`: on a
live collection it inserts one document and reports success; on a failed
connection it leaves the store unchanged and reports failure. -/
def log_search (store : List SearchEvent) (connOk : Bool) (ts : Nat) (ty : String)
    (ps : SearchParams) (cnt : Nat) : List SearchEvent × Bool :=
  if connOk then (store ++ [⟨ts, ty, ps, cnt⟩], true) else (store, false)

/-- Grouping key of the `$group` stage of `get_popular_queries`:
`(params.keyword, params.genre, params.year_range)` (a missing dict key is
a null group field). -/
def queryKey (e : SearchEvent) : Option String × Option String × Option String :=
  (e.params.keyword, e.params.genre, e.params.year_range)

/-- Output of the `$group` stage: one `( _id, count)` pair per distinct
key, the count being the number of events sharing that key. -/
def groupCounts (events : List SearchEvent) : List ((Option String × Option String × Option String) × Nat) :=
  ((events.map queryKey).dedup).map fun k => (k, events.countP (fun e => queryKey e == k))

/-- Descending-count order of the `$sort` stage (`{"count": -1}`). -/
def countDescLe (a b : (Option String × Option String × Option String) × Nat) : Prop :=
  b.2 ≤ a.2

instance : DecidableRel countDescLe := fun a b => by
  unfold countDescLe
  infer_instance

instance : IsTrans ((Option String × Option String × Option String) × Nat) countDescLe :=
  ⟨fun _ _ _ h1 h2 => le_trans h2 h1⟩

instance : IsTotal ((Option String × Option String × Option String) × Nat) countDescLe :=
  ⟨fun a b => le_total b.2 a.2⟩

/-- Embedding of `get_popular_queries(limit)`: `$group`, `$sort` by count
descending, `$limit`.  (MongoDB rejects `$limit: 0`; the caught error
yields `[]`, which coincides with taking 0 groups.) -/
def get_popular_queries (events : List SearchEvent) (limit : Nat) :
    List ((Option String × Option String × Option String) × Nat) :=
  ((groupCounts events).insertionSort countDescLe).take limit

/-- MongoDB cursor `limit(n)`: a limit of 0 means no limit. -/
def mongoLimit {α : Type} (n : Nat) (xs : List α) : List α :=
  if n = 0 then xs else xs.take n

/-- Descending-timestamp order of `sort("timestamp", -1)`. -/
def tsDescLe (a b : SearchEvent) : Prop := b.timestamp ≤ a.timestamp

instance : DecidableRel tsDescLe := fun a b => by
  unfold tsDescLe
  infer_instance

instance : IsTrans SearchEvent tsDescLe := ⟨fun _ _ _ h1 h2 => le_trans h2 h1⟩

instance : IsTotal SearchEvent tsDescLe := ⟨fun a b => le_total b.timestamp a.timestamp⟩

/-- Embedding of `get_recent_queries(limit)`:
`find().sort("timestamp", -1).limit(limit)`. -/
def get_recent_queries (events : List SearchEvent) (limit : Nat) : List SearchEvent :=
  mongoLimit limit (events.insertionSort tsDescLe)

/-! ### Connection handling (`_get_mongo_collection`, `execute_query`) -/

/-- One call of `_get_mongo_collection` (identical logic in both
`log_writer.py` and `log_stats.py`).  `cached` is the module-global
`_mongo_collection`; `connectResult` is what a fresh connection attempt
would produce (`none` on `PyMongoError`).  Returns (value returned to the
caller, new cached state, whether a connection attempt was made). -/
def getMongoCollection (cached : Option Nat) (connectResult : Option Nat) :
    Option Nat × Option Nat × Bool :=
  match cached with
  | some h => (some h, some h, false)
  | none => (connectResult, connectResult, true)

/-- Run of successive `_get_mongo_collection` calls from a given cached
state, threading the cache; each list entry of `env` is the outcome a
fresh connection attempt would have at that call. -/
def mongoRun : Option Nat → List (Option Nat) → List (Option Nat × Bool)
  | _, [] => []
  | st, env :: rest =>
    let r := getMongoCollection st env
    (r.1, r.2.2) :: mongoRun r.2.1 rest

/-- One call of `execute_query` seen through its connection lifecycle: it
always calls `get_db_connection()` afresh and closes that connection in
its `finally` block.  The state counts connections ever created; the
second component is the identity of the fresh connection this call used. -/
def execute_query_conn (created : Nat) : Nat × Nat :=
  (created + 1, created)

/-! ### Application loop bodies (`main.py`) -/

/-- Body of one keyword-search pagination iteration: fetch the page with
`limit=10, offset=(page-1)*10`, then log
`("keyword", {"keyword": keyword, "page": page + 1}, len(results))`. -/
def keyword_page_step (db : Catalog) (kw : String) (page ts : Nat) :
    List FilmRecord × SearchEvent :=
  let results := search_by_keyword db kw 10 ((page - 1) * 10)
  (results, ⟨ts, "keyword", { keyword := some kw, page := some (page + 1) }, results.length⟩)

/-- Body of one genre/year pagination iteration: fetch the page, build
`year_param` (`str(year_from)` for a specific year, `"from-to"` for a
range), then log `("genre_year", {...}, len(results))`. -/
def genre_year_page_step (db : Catalog) (genre : String) (yearFrom yearTo : Int)
    (specific : Bool) (page ts : Nat) : List FilmRecord × SearchEvent :=
  let results := search_by_genre_and_year db genre yearFrom yearTo 10 ((page - 1) * 10)
  let yearParam := if specific then toString yearFrom else toString yearFrom ++ "-" ++ toString yearTo
  (results, ⟨ts, "genre_year", { genre := some genre, year_range := some yearParam }, results.length⟩)

/-! ### Presenter (`formatter.py`) -/

/-- Record shapes reaching `format_results`: a dict row (the DictCursor
shape, all five keys, year already rendered), a tuple row, or a value of
any other type. -/
inductive PyRow where
  | dict (title year rating genre actors : String)
  | tup (fields : List String)
  | other
deriving DecidableEq

/-- Embedding of `truncate_text(text, max_len)`. -/
def truncate_text (text : String) (maxLen : Nat) : String :=
  if text = "" then ""
  else if text.length > maxLen then text.take maxLen ++ "..." else text

/-- Embedding of `color_rating(rating)`; the colorama codes are the ANSI
escape sequences they expand to. -/
def color_rating (rating : String) : String :=
  let r := rating.trim.toUpper
  if r = "G" then "\x1b[92m" ++ r ++ "\x1b[0m"
  else if r = "PG" ∨ r = "PG-13" ∨ r = "R" then "\x1b[93m" ++ r ++ "\x1b[0m"
  else if r = "NC-17" then "\x1b[91m" ++ r ++ "\x1b[0m"
  else r

/-- Table row built for one record inside the `for movie in
results[:max_rows]` loop; the unsupported shape raises `ValueError`. -/
def rowOf : PyRow → Except String (List String)
  | .dict t y r g a => .ok [t, y, color_rating r, g, truncate_text a 85]
  | .tup fs =>
    let row := fs.take 5
    let row2 := if row.length > 2 then row.set 2 (color_rating (row.getD 2 "")) else row
    let row3 := if row2.length > 4 then row2.set 4 (truncate_text (row2.getD 4 "") 85) else row2
    .ok row3
  | .other => .error "Unsupported data format"

/-- Rows added to the table in order; the first unsupported record aborts
the call with the `ValueError`. -/
def rowsOf : List PyRow → Except String (List (List String))
  | [] => .ok []
  | r :: rs =>
    match rowOf r with
    | .error e => .error e
    | .ok row =>
      match rowsOf rs with
      | .error e => .error e
      | .ok rest => .ok (row :: rest)

/-- Embedding of `format_results(results, max_rows)`: `.ok none` is the
early "No results found." return on empty input, `.ok (some rows)` the
printed table, `.error` the propagated `ValueError`. -/
def format_results (results : List PyRow) (maxRows : Nat) :
    Except String (Option (List (List String))) :=
  if results.isEmpty then .ok none
  else
    match rowsOf (results.take maxRows) with
    | .error e => .error e
    | .ok rows => .ok (some rows)

/-! ### Spec-side definitions for the keyword search (claim C1)

These follow the specification words, not the SQL: "matches films whose
title contains `keyword` as a substring (case-insensitive), deduplicated
by film identity, ordered by title ascending, sliced to
`[offset, offset+limit)`". -/

/-- Spec-side keyword search exactly as the claim states it: every film
whose title contains the keyword, ordered by title, sliced. -/
def spec_keyword_search (db : Catalog) (kw : String) (limit offset : Nat) : List FilmRecord :=
  ((((db.films.filter (fun f => containsCI kw f.title)).insertionSort titleLe).drop
    offset).take limit).map (toRecord db)

/-- Spec-side keyword search amended by what the inner joins force: only
films with at least one assigned category and at least one credited actor
participate. -/
def spec_keyword_search_amended (db : Catalog) (kw : String) (limit offset : Nat) :
    List FilmRecord :=
  ((((db.films.filter (fun f => containsCI kw f.title && hasCategory db f && hasActor db f)).insertionSort
    titleLe).drop offset).take limit).map (toRecord db)

/-! ### Concrete fixtures used by witnesses and counterexamples -/

def filmAlpha : Film := ⟨1, "Alpha", 2000, "PG"⟩

/-- Catalog holding a film whose title matches a keyword but that has no
credited actor (the `film_actor` join is empty). -/
def dbNoActor : Catalog := ⟨[filmAlpha], [⟨1, "Drama"⟩], [], [(1, 1)], []⟩

/-- Catalog holding one fully linked film. -/
def dbOk : Catalog := ⟨[filmAlpha], [⟨1, "Drama"⟩], [⟨1, "Ann", "Bee"⟩], [(1, 1)], [(1, 1)]⟩

def evOld : SearchEvent := ⟨1, "keyword", { keyword := some "a", page := some 2 }, 3⟩

def evNew : SearchEvent := ⟨2, "keyword", { keyword := some "b", page := some 2 }, 0⟩

def evsTwo : List SearchEvent := [evOld, evNew]

def evDrama1 : SearchEvent := ⟨3, "genre_year", { genre := some "Drama", year_range := some "2000" }, 5⟩

def evDrama2 : SearchEvent := ⟨4, "genre_year", { genre := some "Drama", year_range := some "2000" }, 2⟩

def evsPop : List SearchEvent := [evOld, evDrama1, evDrama2]

def kDrama : Option String × Option String × Option String := (none, some "Drama", some "2000")

def kKeywordA : Option String × Option String × Option String := (some "a", none, none)

/-! ### Lemmas about `LIKE` matching -/

theorem likeMatch_percent_eq (p : List Char) (s : List Char) :
    likeMatch ('%' :: p) s = s.tails.any (fun t => likeMatch p t) := by
  rw [likeMatch.eq_def]
  simp

theorem likeMatch_clean_nil (c : Char) (hc : cleanChar c) (p : List Char) :
    likeMatch (c :: p) [] = false := by
  obtain ⟨h1, h2, h3⟩ := hc
  rw [likeMatch.eq_def]
  simp [h1, h2, h3]

theorem likeMatch_clean_cons (c : Char) (hc : cleanChar c) (p : List Char)
    (c2 : Char) (s2 : List Char) :
    likeMatch (c :: p) (c2 :: s2) = (c2 == c && likeMatch p s2) := by
  obtain ⟨h1, h2, h3⟩ := hc
  rw [likeMatch.eq_def]
  simp [h1, h2, h3]

theorem likeMatch_percent_iff (p : List Char) (s : List Char) :
    likeMatch ('%' :: p) s = true ↔ ∃ t, t <:+ s ∧ likeMatch p t = true := by
  rw [likeMatch_percent_eq]
  simp [List.any_eq_true, List.mem_tails]

theorem likeMatch_percent_all (s : List Char) : likeMatch ['%'] s = true :=
  (likeMatch_percent_iff [] s).mpr ⟨[], List.nil_suffix, rfl⟩

theorem likeMatch_lit_percent (k : List Char) (hk : ∀ c ∈ k, cleanChar c) (s : List Char) :
    likeMatch (k ++ ['%']) s = true ↔ ∃ t, s = k ++ t := by
  induction k generalizing s with
  | nil =>
    simpa using likeMatch_percent_all s
  | cons c k2 ih =>
    have hc : cleanChar c := hk c (by simp)
    have hk2 : ∀ d ∈ k2, cleanChar d := fun d hd => hk d (by simp [hd])
    cases s with
    | nil =>
      rw [List.cons_append, likeMatch_clean_nil c hc]
      simp
    | cons c2 s2 =>
      rw [List.cons_append, likeMatch_clean_cons c hc]
      simp only [Bool.and_eq_true, beq_iff_eq, ih hk2 s2]
      constructor
      · rintro ⟨rfl, t, rfl⟩
        exact ⟨t, rfl⟩
      · rintro ⟨t, ht⟩
        obtain ⟨rfl, rfl⟩ : c2 = c ∧ s2 = k2 ++ t := by simpa using ht
        exact ⟨rfl, t, rfl⟩

theorem litHead_iff (k : List Char) (s : List Char) :
    litHead k s = true ↔ ∃ t, s = k ++ t := by
  induction k generalizing s with
  | nil => simp [litHead]
  | cons c k2 ih =>
    cases s with
    | nil => simp [litHead]
    | cons c2 s2 =>
      simp only [litHead, Bool.and_eq_true, beq_iff_eq, ih]
      constructor
      · rintro ⟨rfl, t, rfl⟩
        exact ⟨t, rfl⟩
      · rintro ⟨t, ht⟩
        obtain ⟨rfl, rfl⟩ : c = c2 ∧ s2 = k2 ++ t := by
          constructor
          · exact (by simpa using ht : c2 = c ∧ s2 = k2 ++ t).1.symm
          · exact (by simpa using ht : c2 = c ∧ s2 = k2 ++ t).2
        exact ⟨rfl, t, rfl⟩

theorem containsSub_iff (k : List Char) (s : List Char) :
    containsSub k s = true ↔ ∃ t, t <:+ s ∧ litHead k t = true := by
  induction s with
  | nil =>
    simp only [containsSub]
    constructor
    · intro h
      exact ⟨[], List.nil_suffix, h⟩
    · rintro ⟨t, ht, hh⟩
      rcases List.suffix_nil.mp ht with rfl
      exact hh
  | cons c s2 ih =>
    simp only [containsSub, Bool.or_eq_true, ih]
    constructor
    · rintro (h | ⟨t, ht, hh⟩)
      · exact ⟨c :: s2, List.suffix_refl _, h⟩
      · exact ⟨t, ht.trans (List.suffix_cons c s2), hh⟩
    · rintro ⟨t, ht, hh⟩
      rcases ht with ⟨pre, hpre⟩
      cases pre with
      | nil =>
        left
        simpa [← hpre] using hh
      | cons d pre2 =>
        right
        refine ⟨t, ⟨pre2, ?_⟩, hh⟩
        have := congrArg (fun l => List.tail l) hpre
        simpa using this

/-- Central lemma: on a wildcard-free keyword, the MySQL pattern
`'%' ++ k ++ '%'` accepts exactly the subjects containing `k`. -/
theorem likeMatch_iff_containsSub (k : List Char) (hk : ∀ c ∈ k, cleanChar c)
    (s : List Char) :
    likeMatch ('%' :: (k ++ ['%'])) s = containsSub k s := by
  have h1 := likeMatch_percent_iff (k ++ ['%']) s
  have h2 := containsSub_iff k s
  have : likeMatch ('%' :: (k ++ ['%'])) s = true ↔ containsSub k s = true := by
    rw [h1, h2]
    constructor
    · rintro ⟨t, ht, hm⟩
      rcases (likeMatch_lit_percent k hk t).mp hm with ⟨u, rfl⟩
      refine ⟨k ++ u, ht, ?_⟩
      exact (litHead_iff k (k ++ u)).mpr ⟨u, rfl⟩
    · rintro ⟨t, ht, hh⟩
      rcases (litHead_iff k t).mp hh with ⟨u, rfl⟩
      exact ⟨k ++ u, ht, (likeMatch_lit_percent k hk (k ++ u)).mpr ⟨u, rfl⟩⟩
  cases hL : likeMatch ('%' :: (k ++ ['%'])) s <;> cases hC : containsSub k s <;>
    simp_all

/-! ### Supporting lemmas for the claims -/

theorem titleMatches_eq_containsCI (kw : String) (hw : ∀ c ∈ lowerChars kw, cleanChar c)
    (t : String) : titleMatches kw t = containsCI kw t := by
  unfold titleMatches likePattern containsCI
  exact likeMatch_iff_containsSub (lowerChars kw) hw (lowerChars t)

theorem flatten_pages {α : Type} (xs : List α) (L : Nat) (n : Nat) :
    (((List.range n).map fun i => (xs.drop (i * L)).take L)).flatten = xs.take (n * L) := by
  induction n with
  | zero => simp
  | succ n ih =>
    rw [List.range_succ, List.map_append, List.flatten_append, ih]
    simp only [List.map_cons, List.map_nil, List.flatten_cons, List.flatten_nil,
      List.append_nil]
    rw [← List.take_add, Nat.succ_mul]

theorem search_by_keyword_eq_window (db : Catalog) (kw : String) (limit offset : Nat) :
    search_by_keyword db kw limit offset
      = ((allKeywordResults db kw).drop offset).take limit := by
  unfold search_by_keyword allKeywordResults
  rw [List.map_take, List.map_drop]

/-! ### Claim theorems -/

/-- C1 counterexample: claim C1 states that `search_by_keyword` returns
exactly the films whose title contains the keyword case-insensitively
(ordered and sliced); on the catalog `dbNoActor`, whose single film
"Alpha" matches the keyword "alpha" but has no credited actor, the inner
join eliminates the film and the code returns the empty page, while the
claimed behaviour (`spec_keyword_search`) returns the film. -/
theorem c1_counterexample :
    search_by_keyword dbNoActor "alpha" 10 0 ≠ spec_keyword_search dbNoActor "alpha" 10 0 := by
  decide

/-- C1 (amended): for a keyword free of `LIKE` wildcard and escape
characters, over a catalog whose `film_id`s are unique (the primary key
of the schema), `search_by_keyword(keyword, limit, offset)` returns
exactly the films that have at least one assigned category and at least
one credited actor and whose title contains the keyword as a
case-insensitive substring, one record per film, ordered by title
ascending, sliced to `[offset, offset+limit)`; and the returned page is
ordered by title ascending. -/
theorem c1_keyword_search_amended (db : Catalog) (kw : String) (limit offset : Nat)
    (hw : ∀ c ∈ lowerChars kw, cleanChar c)
    (hpk : (db.films.map Film.film_id).Nodup) :
    search_by_keyword db kw limit offset = spec_keyword_search_amended db kw limit offset
    ∧ List.Pairwise (fun a b : FilmRecord => a.title ≤ b.title)
        (search_by_keyword db kw limit offset) := by
  have hfilter : db.films.filter (keywordRowFilter db kw)
      = db.films.filter (fun f => containsCI kw f.title && hasCategory db f && hasActor db f) := by
    apply List.filter_congr
    intro f _
    unfold keywordRowFilter
    rw [titleMatches_eq_containsCI kw hw]
  constructor
  · unfold search_by_keyword spec_keyword_search_amended
    rw [hfilter]
  · unfold search_by_keyword
    apply (List.pairwise_map).mpr
    apply List.Pairwise.sublist ((List.take_sublist _ _).trans (List.drop_sublist _ _))
    exact (List.sorted_insertionSort titleLe _).imp (fun h => h)

/-- C1 witness: the amended statement instantiated on the fully linked
one-film catalog with the clean keyword "alp". -/
theorem c1_witness :
    search_by_keyword dbOk "alp" 10 0 = spec_keyword_search_amended dbOk "alp" 10 0
    ∧ List.Pairwise (fun a b : FilmRecord => a.title ≤ b.title)
        (search_by_keyword dbOk "alp" 10 0) :=
  c1_keyword_search_amended dbOk "alp" 10 0 (by decide) (by decide)

/-- C2: every page of a keyword search holds at most `limit` records; the
pages fetched at the consecutive offsets `0, limit, 2*limit, …` (first
`n` of them) concatenate, in order, to the first `n*limit` records of the
full ordered match set — so consecutive pages never overlap and leave no
gap — and as soon as `n*limit` covers the match set the concatenation is
the whole match set. -/
theorem c2_pagination_partitions (db : Catalog) (kw : String) (limit offset n : Nat) :
    (search_by_keyword db kw limit offset).length ≤ limit
    ∧ (((List.range n).map fun i => search_by_keyword db kw limit (i * limit))).flatten
        = (allKeywordResults db kw).take (n * limit)
    ∧ ((allKeywordResults db kw).length ≤ n * limit →
        (((List.range n).map fun i => search_by_keyword db kw limit (i * limit))).flatten
          = allKeywordResults db kw) := by
  have hpages : (((List.range n).map fun i => search_by_keyword db kw limit (i * limit))).flatten
      = (allKeywordResults db kw).take (n * limit) := by
    have hcong : ((List.range n).map fun i => search_by_keyword db kw limit (i * limit))
        = (List.range n).map fun i => ((allKeywordResults db kw).drop (i * limit)).take limit := by
      apply List.map_congr_left
      intro i _
      exact search_by_keyword_eq_window db kw limit (i * limit)
    rw [hcong, flatten_pages]
  refine ⟨?_, hpages, fun hcov => ?_⟩
  · rw [search_by_keyword_eq_window db kw limit offset, List.length_take]
    exact Nat.min_le_left _ _
  · rw [hpages]
    exact List.take_of_length_le hcov

/-- C2 witness: on the one-film catalog a single page of size 10 already
covers the full match set. -/
theorem c2_witness :
    (((List.range 1).map fun i => search_by_keyword dbOk "alp" 10 (i * 10))).flatten
      = allKeywordResults dbOk "alp" :=
  (c2_pagination_partitions dbOk "alp" 10 0 1).2.2 (by decide)

/-- C3: the claim (and the docstring of `get_year_range`) promise
`(0, 0)` on an empty catalog, but on an empty yet reachable catalog the
aggregate row is `{min_year: NULL, max_year: NULL}` — a truthy dict — so
the code returns `(None, None)` instead of `(0, 0)`. -/
theorem c3_year_range_empty_catalog :
    get_year_range ⟨[], [], [], [], []⟩ true = (none, none)
    ∧ ((none, none) : Option Int × Option Int) ≠ (some 0, some 0) := by
  constructor
  · rfl
  · decide

/-- C4: in both pagination loop bodies of `main`, the logged Search Event
carries `results_count` equal to the length of the page returned by the
very search call of that iteration (which is the `limit=10,
offset=(page-1)*10` window), never a total match count. -/
theorem c4_results_count_is_page_length (db : Catalog) (kw genre : String)
    (yearFrom yearTo : Int) (specific : Bool) (page ts : Nat) :
    ((keyword_page_step db kw page ts).2.results_count
        = (keyword_page_step db kw page ts).1.length
      ∧ (keyword_page_step db kw page ts).1
        = search_by_keyword db kw 10 ((page - 1) * 10))
    ∧ ((genre_year_page_step db genre yearFrom yearTo specific page ts).2.results_count
        = (genre_year_page_step db genre yearFrom yearTo specific page ts).1.length
      ∧ (genre_year_page_step db genre yearFrom yearTo specific page ts).1
        = search_by_genre_and_year db genre yearFrom yearTo 10 ((page - 1) * 10)) :=
  ⟨⟨rfl, rfl⟩, ⟨rfl, rfl⟩⟩

/-! ### Counting lemmas for the aggregation pipeline -/

theorem countP_or_disjoint {α : Type} (p q : α → Bool)
    (h : ∀ a, ¬(p a = true ∧ q a = true)) (l : List α) :
    l.countP (fun a => p a || q a) = l.countP p + l.countP q := by
  induction l with
  | nil => simp
  | cons a l ih =>
    rw [List.countP_cons, List.countP_cons, List.countP_cons, ih]
    cases hp : p a <;> cases hq : q a
    · simp [hp, hq] <;> omega
    · simp [hp, hq] <;> omega
    · simp [hp, hq] <;> omega
    · exact absurd ⟨hp, hq⟩ (h a)

theorem sum_group_counts_eq (es : List SearchEvent)
    (keys : List (Option String × Option String × Option String)) (h : keys.Nodup) :
    (keys.map fun k => es.countP (fun e => queryKey e == k)).sum
      = es.countP (fun e => keys.contains (queryKey e)) := by
  induction keys with
  | nil => simp
  | cons k ks ih =>
    have hk : k ∉ ks := (List.nodup_cons.mp h).1
    have hks : ks.Nodup := (List.nodup_cons.mp h).2
    rw [List.map_cons, List.sum_cons, ih hks]
    have hdis : ∀ e : SearchEvent,
        ¬((queryKey e == k) = true ∧ ks.contains (queryKey e) = true) := by
      rintro e ⟨h1, h2⟩
      have hqe : queryKey e = k := by simpa using h1
      rw [hqe] at h2
      exact hk (by simpa using h2)
    rw [← countP_or_disjoint (fun e => queryKey e == k)
      (fun e => ks.contains (queryKey e)) hdis es]
    congr 1

theorem sum_take_le (l : List Nat) (n : Nat) : (l.take n).sum ≤ l.sum := by
  conv_rhs => rw [← List.take_append_drop n l]
  rw [List.sum_append]
  exact Nat.le_add_right _ _

theorem groupCounts_sum_le (events : List SearchEvent) :
    ((groupCounts events).map Prod.snd).sum ≤ events.length := by
  unfold groupCounts
  rw [List.map_map]
  calc (((events.map queryKey).dedup).map
          (Prod.snd ∘ fun k => (k, events.countP (fun e => queryKey e == k)))).sum
      = (((events.map queryKey).dedup).map
          fun k => events.countP (fun e => queryKey e == k)).sum := rfl
    _ = events.countP (fun e => ((events.map queryKey).dedup).contains (queryKey e)) :=
        sum_group_counts_eq events _ (List.nodup_dedup _)
    _ ≤ events.length := List.countP_le_length _

/-- C5: `get_popular_queries(limit)` returns at most `limit` groups,
ordered descending by count; each returned group carries the exact number
of logged events sharing its `(keyword, genre, year_range)` key and that
key occurs among the logged events; the returned counts sum to at most
the number of logged events; and every group left out has a count no
larger than any returned one (the returned groups are the top `limit`). -/
theorem c5_popular_queries (events : List SearchEvent) (limit : Nat) :
    (get_popular_queries events limit).length ≤ limit
    ∧ (get_popular_queries events limit).Pairwise countDescLe
    ∧ (∀ p ∈ get_popular_queries events limit,
        p.2 = events.countP (fun e => queryKey e == p.1) ∧ p.1 ∈ events.map queryKey)
    ∧ ((get_popular_queries events limit).map Prod.snd).sum ≤ events.length
    ∧ (∀ p ∈ get_popular_queries events limit, ∀ q ∈ groupCounts events,
        q ∉ get_popular_queries events limit → q.2 ≤ p.2) := by
  have hsorted : List.Sorted countDescLe ((groupCounts events).insertionSort countDescLe) :=
    List.sorted_insertionSort countDescLe _
  have hperm : ((groupCounts events).insertionSort countDescLe).Perm (groupCounts events) :=
    List.perm_insertionSort countDescLe _
  refine ⟨?_, ?_, ?_, ?_, ?_⟩
  · unfold get_popular_queries
    rw [List.length_take]
    exact Nat.min_le_left _ _
  · exact List.Pairwise.sublist (List.take_sublist _ _) hsorted
  · intro p hp
    have hpS : p ∈ (groupCounts events).insertionSort countDescLe := List.mem_of_mem_take hp
    have hpG : p ∈ groupCounts events := (List.mem_insertionSort countDescLe).mp hpS
    obtain ⟨k, hk, rfl⟩ := List.mem_map.mp hpG
    exact ⟨rfl, List.mem_dedup.mp hk⟩
  · calc ((get_popular_queries events limit).map Prod.snd).sum
        = ((((groupCounts events).insertionSort countDescLe).map Prod.snd).take limit).sum := by
          unfold get_popular_queries
          rw [List.map_take]
      _ ≤ (((groupCounts events).insertionSort countDescLe).map Prod.snd).sum :=
          sum_take_le _ _
      _ = ((groupCounts events).map Prod.snd).sum := (hperm.map Prod.snd).sum_eq
      _ ≤ events.length := groupCounts_sum_le events
  · intro p hp q hqG hqnR
    have hqS : q ∈ (groupCounts events).insertionSort countDescLe :=
      (List.mem_insertionSort countDescLe).mpr hqG
    have hpa : List.Pairwise countDescLe
        ((((groupCounts events).insertionSort countDescLe).take limit)
          ++ (((groupCounts events).insertionSort countDescLe).drop limit)) := by
      rw [List.take_append_drop]
      exact hsorted
    have hqTD : q ∈ (((groupCounts events).insertionSort countDescLe).take limit)
        ++ (((groupCounts events).insertionSort countDescLe).drop limit) := by
      rw [List.take_append_drop]
      exact hqS
    have hqd : q ∈ ((groupCounts events).insertionSort countDescLe).drop limit := by
      rcases List.mem_append.mp hqTD with hq1 | hq2
      · exact absurd hq1 hqnR
      · exact hq2
    exact (List.pairwise_append.mp hpa).2.2 p hp q hqd

/-- C5 witness: on three logged events (one keyword search, two identical
genre searches) with `limit = 1`, the returned group is the Drama group
with count 2, its key occurs among the events, and the omitted keyword
group has a smaller count. -/
theorem c5_witness :
    ((kDrama, 2).2 = evsPop.countP (fun e => queryKey e == (kDrama, 2).1)
      ∧ (kDrama, 2).1 ∈ evsPop.map queryKey)
    ∧ (kKeywordA, 1).2 ≤ (kDrama, 2).2 := by
  refine ⟨(c5_popular_queries evsPop 1).2.2.1 (kDrama, 2) (by decide), ?_⟩
  exact (c5_popular_queries evsPop 1).2.2.2.2 (kDrama, 2) (by decide) (kKeywordA, 1)
    (by decide) (by decide)

/-- C6 counterexample: claim C6 quantifies over every `limit ≥ 0`, but
`find().limit(0)` means "no limit" in MongoDB, so with one logged event
`get_recent_queries(0)` returns that event instead of zero events. -/
theorem c6_counterexample :
    get_recent_queries [evOld] 0 = [evOld]
    ∧ ¬((get_recent_queries [evOld] 0).length ≤ 0) := by
  constructor
  · decide
  · decide

/-- C6 (amended): for every `limit ≥ 1`, `get_recent_queries(limit)`
returns the `min(limit, #events)` most recently logged events ordered
descending by timestamp: the page plus the remaining sorted events is a
permutation of the store, nothing outside the page is newer than anything
in it, and whenever at least one event has been logged the page starts
with an event of maximal timestamp.  (A limit of 0 is interpreted by the
store as "no limit" and returns all events.) -/
theorem c6_recent_queries_amended (events : List SearchEvent) (limit : Nat)
    (hl : 1 ≤ limit) :
    (get_recent_queries events limit).length = min limit events.length
    ∧ (get_recent_queries events limit).Pairwise tsDescLe
    ∧ (get_recent_queries events limit
        ++ ((events.insertionSort tsDescLe).drop limit)).Perm events
    ∧ (∀ r ∈ get_recent_queries events limit,
        ∀ d ∈ (events.insertionSort tsDescLe).drop limit, d.timestamp ≤ r.timestamp)
    ∧ (events ≠ [] → ∃ h t, get_recent_queries events limit = h :: t
        ∧ h ∈ events ∧ ∀ e ∈ events, e.timestamp ≤ h.timestamp) := by
  have hsorted : List.Sorted tsDescLe (events.insertionSort tsDescLe) :=
    List.sorted_insertionSort tsDescLe events
  have hperm : (events.insertionSort tsDescLe).Perm events :=
    List.perm_insertionSort tsDescLe events
  have htake : get_recent_queries events limit = (events.insertionSort tsDescLe).take limit := by
    unfold get_recent_queries mongoLimit
    rw [if_neg (Nat.one_le_iff_ne_zero.mp hl)]
  refine ⟨?_, ?_, ?_, ?_, ?_⟩
  · rw [htake, List.length_take, hperm.length_eq]
  · rw [htake]
    exact List.Pairwise.sublist (List.take_sublist _ _) hsorted
  · rw [htake, List.take_append_drop]
    exact hperm
  · intro r hr d hd
    rw [htake] at hr
    have hpa : List.Pairwise tsDescLe
        (((events.insertionSort tsDescLe).take limit)
          ++ ((events.insertionSort tsDescLe).drop limit)) := by
      rw [List.take_append_drop]
      exact hsorted
    exact (List.pairwise_append.mp hpa).2.2 r hr d hd
  · intro hne
    have hMne : events.insertionSort tsDescLe ≠ [] := by
      intro hnil
      have h2 := hperm
      rw [hnil] at h2
      exact hne h2.symm.eq_nil
    obtain ⟨h, t, hM⟩ := List.exists_cons_of_ne_nil hMne
    obtain ⟨L, rfl⟩ := Nat.exists_eq_succ_of_ne_zero (Nat.one_le_iff_ne_zero.mp hl)
    refine ⟨h, t.take L, ?_, ?_, ?_⟩
    · rw [htake, hM]
      rfl
    · have hhM : h ∈ events.insertionSort tsDescLe := by
        rw [hM]
        exact List.mem_cons_self h t
      exact hperm.mem_iff.mp hhM
    · intro e he
      have heM : e ∈ events.insertionSort tsDescLe := hperm.mem_iff.mpr he
      rw [hM] at heM
      rcases List.mem_cons.mp heM with rfl | het
      · exact le_refl _
      · have := hM ▸ hsorted
        exact List.rel_of_sorted_cons this e het

/-- C6 witness: the amended statement instantiated on a two-event store
with `limit = 5`; the page starts with the newest event. -/
theorem c6_witness :
    ∃ h t, get_recent_queries evsTwo 5 = h :: t
      ∧ h ∈ evsTwo ∧ ∀ e ∈ evsTwo, e.timestamp ≤ h.timestamp :=
  (c6_recent_queries_amended evsTwo 5 (by decide)).2.2.2.2 (by decide)

/-- C7 counterexample: claim C7 states that the catalog connection handle
is a cached singleton reused across calls, but `execute_query` opens a
fresh connection on every call: two consecutive calls use different
connections. -/
theorem c7_counterexample :
    (execute_query_conn (execute_query_conn 0).1).2 ≠ (execute_query_conn 0).2 := by
  decide

/-- C7 (amended): the analytics handle (the identical
`_get_mongo_collection` logic of `log_writer.py` and of `log_stats.py`,
one cache each) is a process-wide singleton: once a handle is cached,
every later call returns that same handle and attempts no reconnection,
and a connection attempt is made exactly when no handle is cached (its
result being cached on success).  The catalog side is not a singleton:
every `execute_query` call creates (and closes) a fresh connection. -/
theorem c7_connection_reuse_amended (h : Nat) (env : List (Option Nat)) (r : Option Nat)
    (st : Nat) :
    mongoRun (some h) env = env.map (fun _ => (some h, false))
    ∧ getMongoCollection none r = (r, r, true)
    ∧ getMongoCollection (some h) r = (some h, some h, false)
    ∧ (execute_query_conn st).2 = st ∧ (execute_query_conn st).1 = st + 1 := by
  refine ⟨?_, rfl, rfl, rfl, rfl⟩
  induction env with
  | nil => rfl
  | cons e rest ih =>
    simpa [mongoRun, getMongoCollection] using ih

/-- C8: one keyword pagination iteration that fetches page `page` (its
query runs with `offset = (page-1)*10`) logs its Search Event with the
`page` parameter set to `page + 1`, one greater than the page fetched. -/
theorem c8_logged_page_off_by_one (db : Catalog) (kw : String) (page ts : Nat) :
    (keyword_page_step db kw page ts).2.params.page = some (page + 1)
    ∧ (keyword_page_step db kw page ts).1 = search_by_keyword db kw 10 ((page - 1) * 10) :=
  ⟨rfl, rfl⟩

/-- Helper for C9: the row loop aborts with the `ValueError` as soon as
some row it iterates over has an unsupported shape. -/
theorem rowsOf_error (l : List PyRow) (h : PyRow.other ∈ l) :
    rowsOf l = .error "Unsupported data format" := by
  induction l with
  | nil => simp at h
  | cons r rs ih =>
    rcases List.mem_cons.mp h with rfl | hm
    · rfl
    · cases r with
      | dict t y rr g a => simp [rowsOf, rowOf, ih hm]
      | tup fs => simp [rowsOf, rowOf, ih hm]
      | other => rfl

/-- C9: whenever a record of unsupported shape (neither dict nor tuple)
appears among the rows `format_results` renders (the first `max_rows`
records of a non-empty input), the call surfaces the hard
unsupported-type failure to its caller instead of degrading to empty or
partial output. -/
theorem c9_unsupported_shape_raises (rows : List PyRow) (maxRows : Nat)
    (h : PyRow.other ∈ rows.take maxRows) :
    format_results rows maxRows = .error "Unsupported data format" := by
  have hmem : PyRow.other ∈ rows := List.mem_of_mem_take h
  have hne : rows.isEmpty = false := List.isEmpty_eq_false.mpr (List.ne_nil_of_mem hmem)
  unfold format_results
  rw [hne]
  simp only [Bool.false_eq_true, if_false]
  rw [rowsOf_error _ h]

/-- C9 witness: a well-formed dict row followed by an unsupported value
makes the call fail with the unsupported-type error. -/
theorem c9_witness :
    format_results [PyRow.dict "Alpha" "2000" "PG" "Drama" "Ann Bee", PyRow.other] 10
      = .error "Unsupported data format" :=
  c9_unsupported_shape_raises [PyRow.dict "Alpha" "2000" "PG" "Drama" "Ann Bee", PyRow.other]
    10 (by decide)

/-- Helper for C10: a film some of whose joined categories is the
searched genre clears the category join. -/
theorem hasCategory_of_contains (db : Catalog) (f : Film) (genre : String)
    (h : (filmCategoryNames db f).contains genre = true) : hasCategory db f = true := by
  unfold hasCategory
  cases hn : filmCategoryNames db f with
  | nil =>
    rw [hn] at h
    simp at h
  | cons a l => rfl

/-- C10: every record returned by either search comes from a film of the
catalog that has at least one assigned category and at least one credited
actor — the inner joins silently exclude films lacking either link, even
when title, genre, or year match. -/
theorem c10_inner_join_invariant (db : Catalog) (kw genre : String)
    (yearFrom yearTo : Int) (limit offset : Nat) :
    (∀ r ∈ search_by_keyword db kw limit offset,
        ∃ f ∈ db.films, hasCategory db f = true ∧ hasActor db f = true ∧ r = toRecord db f)
    ∧ (∀ r ∈ search_by_genre_and_year db genre yearFrom yearTo limit offset,
        ∃ f ∈ db.films, hasCategory db f = true ∧ hasActor db f = true
          ∧ r = toRecordGY db genre f) := by
  constructor
  · intro r hr
    obtain ⟨f, hf, rfl⟩ := List.mem_map.mp hr
    have hf2 : f ∈ (db.films.filter (keywordRowFilter db kw)).insertionSort titleLe :=
      List.mem_of_mem_drop (List.mem_of_mem_take hf)
    have hf3 := List.mem_filter.mp ((List.mem_insertionSort titleLe).mp hf2)
    have hflt := hf3.2
    unfold keywordRowFilter at hflt
    simp only [Bool.and_eq_true] at hflt
    exact ⟨f, hf3.1, hflt.1.2, hflt.2, rfl⟩
  · intro r hr
    obtain ⟨f, hf, rfl⟩ := List.mem_map.mp hr
    have hf2 : f ∈ (db.films.filter (genreYearRowFilter db genre yearFrom yearTo)).insertionSort
        yearTitleLe := List.mem_of_mem_drop (List.mem_of_mem_take hf)
    have hf3 := List.mem_filter.mp ((List.mem_insertionSort yearTitleLe).mp hf2)
    have hflt := hf3.2
    unfold genreYearRowFilter at hflt
    simp only [Bool.and_eq_true] at hflt
    exact ⟨f, hf3.1, hasCategory_of_contains db f genre hflt.1.1.1, hflt.1.1.2, rfl⟩

/-- C10 witness: the invariant applied to the record actually returned on
the fully linked one-film catalog. -/
theorem c10_witness :
    ∃ f ∈ dbOk.films, hasCategory dbOk f = true ∧ hasActor dbOk f = true
      ∧ toRecord dbOk filmAlpha = toRecord dbOk f :=
  (c10_inner_join_invariant dbOk "alp" "Drama" 1990 2010 10 0).1
    (toRecord dbOk filmAlpha) (by decide)

end FilmSearch
